import Mathlib

/-!
# usbipd-tui: the device listing parser, the two projections and the selection handlers

A shallow embedding of `main.go`.  Go strings are modelled as lists of Unicode
code points (`GoString`), Go's `int` as `Int`, a Go runtime panic as an explicit
outcome, and the external `usbipd.exe` process as a function from the calls made
so far and the argument vector to the result of `cmd.Output()`.
-/

set_option autoImplicit false

namespace UsbipdTui

/-! ## Strings (package `strings` of the Go standard library) -/

/-- A Go string, as the sequence of its code points (the text is taken to be well-formed
UTF-8, on which the byte-wise functions of package `strings` act code point by code point). -/
abbrev GoString := List Char

/-- Go `unicode.IsSpace`: the Latin-1 spaces `'\t' '\n' '\v' '\f' '\r' ' '`, U+0085, U+00A0,
and above Latin-1 the code points of the `White_Space` range table. -/
def isSpace (c : Char) : Bool :=
  let n := c.toNat
  (0x09 ≤ n && n ≤ 0x0d) || n == 0x20 || n == 0x85 || n == 0xa0 || n == 0x1680 ||
  (0x2000 ≤ n && n ≤ 0x200a) || n == 0x2028 || n == 0x2029 || n == 0x202f ||
  n == 0x205f || n == 0x3000

/-- Worker of `Split`: `cur` is the piece being read. -/
def splitGo (sep : Char) : List Char → List Char → List GoString
  | [], cur => [cur]
  | c :: cs, cur => if c = sep then cur :: splitGo sep cs [] else splitGo sep cs (cur ++ [c])

/-- Go `strings.Split(s, sep)` for a one-character separator: the pieces between the
separators, one more than there are separators. -/
def Split (s : GoString) (sep : Char) : List GoString :=
  splitGo sep s []

/-- Go `strings.TrimSpace`: the string without its leading and trailing white space. -/
def TrimSpace (s : GoString) : GoString :=
  ((s.dropWhile isSpace).reverse.dropWhile isSpace).reverse

/-- Worker of `Fields`: `cur` is the field being read. -/
def fieldsGo : List Char → List Char → List GoString
  | [], cur => if cur = [] then [] else [cur]
  | c :: cs, cur =>
    if isSpace c then
      (if cur = [] then fieldsGo cs [] else cur :: fieldsGo cs [])
    else fieldsGo cs (cur ++ [c])

/-- Go `strings.Fields`: the maximal runs of non-space characters. -/
def Fields (s : GoString) : List GoString :=
  fieldsGo s []

/-- Go `strings.Join(elems, sep)`. -/
def Join : List GoString → GoString → GoString
  | [], _ => []
  | [a], _ => a
  | a :: b :: rest, sep => a ++ sep ++ Join (b :: rest) sep

/-! ## Data model -/

/-- The constant `NotShared` (`iota` = 0). -/
def NotShared : Int := 0

/-- The constant `Shared` (1). -/
def Shared : Int := 1

/-- The constant `Attached` (2). -/
def Attached : Int := 2

/-- The struct `Device`. -/
structure Device where
  BusID : GoString
  DeviceID : GoString
  DeviceName : GoString
  Status : Int
  deriving DecidableEq, Repr

/-- A Go `error` value, identified with its message. -/
abbrev GoError := GoString

/-- What a panic carries: the error given to `panic(err)`, or a runtime error
(index or slice bounds out of range). -/
inductive PanicValue where
  | err (e : GoError)
  | runtime (msg : GoString)
  deriving DecidableEq, Repr

/-- How a call ends: it returns a value, or it panics. -/
inductive Outcome (α : Type) where
  | ret (val : α)
  | panic (p : PanicValue)
  deriving DecidableEq, Repr

/-! ## The external process -/

/-- An argument vector, the program name first. -/
abbrev Argv := List GoString

/-- The external tool: from the calls already made and the call being made, the result of
`cmd.Output()` (the captured standard output, or an error). -/
abbrev Exec := List Argv → Argv → Except GoError GoString

/-- `exec.Command(argv...).Output()`: the call is recorded and the tool answers. -/
def Output (exec : Exec) (calls : List Argv) (argv : Argv) :
    Except GoError GoString × List Argv :=
  (exec calls argv, calls ++ [argv])

/-! ## `getDevices` -/

/-- The message of the error of a listing without its markers. -/
def markerError : GoError :=
  "Could not find the beginning or end of the device list".toList

/-- The loop of lines 198-205: `i` is the index of the head of the list, `begnRow` and
`endRow` the values held so far. -/
def findRows : List GoString → Int → Int → Int → Int × Int
  | [], _, begnRow, endRow => (begnRow, endRow)
  | v :: rest, i, begnRow, endRow =>
    let begnRow := if v = "Connected:".toList then i + 2 else begnRow
    let endRow := if v = "Persisted:".toList then i else endRow
    findRows rest (i + 1) begnRow endRow

/-- The Go slice expression `s[low:high]` on a slice whose capacity is its length: a
runtime panic (`none`) unless `0 ≤ low ≤ high ≤ len(s)`. -/
def sliceExpr {α : Type} (s : List α) (low high : Int) : Option (List α) :=
  if 0 ≤ low ∧ low ≤ high ∧ high ≤ (s.length : Int) then
    some ((s.drop low.toNat).take (high.toNat - low.toNat))
  else none

/-- The body of the loop of lines 211-230 for one line `v`: `none` is the `continue`,
`some d` the device appended to `items`. -/
def parseRow (v : GoString) : Option Device :=
  let cols := Fields v
  if cols.length < 3 then none
  else
    let busid := cols.getD 0 []
    let device := cols.getD 1 []
    let remainder := cols.drop 2
    let last := remainder.getD (remainder.length - 1) []
    let status :=
      if last = "Shared".toList then Shared
      else if last = "Attached".toList then Attached
      else NotShared
    let deviceName := Join (remainder.take (remainder.length - 1)) " ".toList
    some { BusID := busid, DeviceID := device, DeviceName := deviceName, Status := status }

/-- The loop of lines 211-230 over the lines of the range, `items` being the slice built
so far. -/
def parseRows : List GoString → List Device → List Device
  | [], items => items
  | v :: rest, items =>
    match parseRow v with
    | none => parseRows rest items
    | some d => parseRows rest (items ++ [d])

/-- Lines 187-232 of `getDevices`: what it does with the captured output of the listing
command. -/
def parseOutput (strOutput : GoString) : Outcome (List Device × Option GoError) :=
  let strOutputList := (Split strOutput '\n').map TrimSpace
  let (begnRow, endRow) := findRows strOutputList 0 (-1) (-1)
  if begnRow = -1 ∨ endRow = -1 then
    .ret ([], some markerError)
  else
    match sliceExpr strOutputList begnRow endRow with
    | none => .panic (.runtime "slice bounds out of range".toList)
    | some rows => .ret (parseRows rows [], none)

/-- The function `getDevices`: runs `usbipd.exe list` and parses its output. -/
def getDevices (exec : Exec) (calls : List Argv) :
    Outcome (List Device × Option GoError) × List Argv :=
  match Output exec calls ["usbipd.exe".toList, "list".toList] with
  | (.error err, calls) => (.ret ([], some err), calls)
  | (.ok output, calls) => (parseOutput output, calls)

/-- The function `bindDevice`: runs `usbipd.exe bind --busid <busid>`. -/
def bindDevice (exec : Exec) (calls : List Argv) (busid : GoString) :
    Option GoError × List Argv :=
  match Output exec calls ["usbipd.exe".toList, "bind".toList, "--busid".toList, busid] with
  | (.error err, calls) => (some err, calls)
  | (.ok _, calls) => (none, calls)

/-- The function `attachDevice`: runs `usbipd.exe attach --wsl --busid <busid>`. -/
def attachDevice (exec : Exec) (calls : List Argv) (busid : GoString) :
    Option GoError × List Argv :=
  match Output exec calls
      ["usbipd.exe".toList, "attach".toList, "--wsl".toList, "--busid".toList, busid] with
  | (.error err, calls) => (some err, calls)
  | (.ok _, calls) => (none, calls)

/-- The function `detachDevice`: runs `usbipd.exe detach --busid <busid>`. -/
def detachDevice (exec : Exec) (calls : List Argv) (busid : GoString) :
    Option GoError × List Argv :=
  match Output exec calls ["usbipd.exe".toList, "detach".toList, "--busid".toList, busid] with
  | (.error err, calls) => (some err, calls)
  | (.ok _, calls) => (none, calls)

/-! ## The tables (package `tview`) -/

/-- A cell of a `tview.Table`: its text and whether it can be selected. -/
structure TableCell where
  Text : GoString
  NotSelectable : Bool
  deriving DecidableEq, Repr

/-- The content of a `tview.Table`: its rows of cells. -/
abbrev Table := List (List TableCell)

/-- The call `tview.NewTableCell(text)`. -/
def NewTableCell (text : GoString) : TableCell :=
  { Text := text, NotSelectable := false }

/-- The method `TableCell.SetSelectable`. -/
def TableCell.SetSelectable (c : TableCell) (selectable : Bool) : TableCell :=
  { c with NotSelectable := !selectable }

/-- The method `Table.Clear`: removes all the rows. -/
def Table.Clear (_t : Table) : Table := []

/-- The method `Table.SetCell`: the table grows by empty rows up to `row`, the row by empty
cells up to `column`, and the cell is stored there. -/
def Table.SetCell (t : Table) (row column : Nat) (cell : TableCell) : Table :=
  let t := if row ≥ t.length then t ++ List.replicate (row - t.length + 1) [] else t
  let r := t.getD row []
  let r :=
    if column ≥ r.length then r ++ List.replicate (column - r.length + 1) (NewTableCell [])
    else r
  t.set row (r.set column cell)

/-! ## The user interface state and its handlers -/

/-- The struct `UIState`; each field is the slice its pointer refers to. -/
structure UIState where
  AttachedItems : List Device
  DetachedItems : List Device
  deriving DecidableEq, Repr

/-- What the closures of `main` share: `uiState`, the two tables, and the record of the
external calls made so far. -/
structure Sys where
  uiState : UIState
  attachedTable : Table
  detachedTable : Table
  calls : List Argv
  deriving DecidableEq, Repr

/-- The Go index expression `s[i]`: a runtime panic (`none`) unless `0 ≤ i < len(s)`. -/
def indexExpr {α : Type} (s : List α) (i : Int) : Option α :=
  if 0 ≤ i then s.get? i.toNat else none

/-- The loop of lines 60-64: the devices whose status is `Attached`, appended in order. -/
def attachedOf (items : List Device) : List Device :=
  items.foldl (fun attachedItems v =>
    if v.Status = Attached then attachedItems ++ [v] else attachedItems) []

/-- The loop of lines 66-70: the devices whose status is not `Attached`, appended in order. -/
def detachedOf (items : List Device) : List Device :=
  items.foldl (fun detachedItems v =>
    if v.Status ≠ Attached then detachedItems ++ [v] else detachedItems) []

/-- The three header cells of lines 72-74 and 81-83. -/
def setHeader (t : Table) : Table :=
  ((t.SetCell 0 0 ((NewTableCell "BusID".toList).SetSelectable false)).SetCell 0 1
    ((NewTableCell "DeviceID".toList).SetSelectable false)).SetCell 0 2
    ((NewTableCell "DeviceName".toList).SetSelectable false)

/-- The loops of lines 75-79 and 85-89: `i` is the index of the head of the list. -/
def setRows : List Device → Nat → Table → Table
  | [], _, t => t
  | v :: rest, i, t =>
    setRows rest (i + 1)
      (((t.SetCell (i + 1) 0 (NewTableCell v.BusID)).SetCell (i + 1) 1
        (NewTableCell v.DeviceID)).SetCell (i + 1) 2 (NewTableCell v.DeviceName))

/-- The closure `updateDeviceList`: the panic it ends in, if any, and the state it leaves. -/
def updateDeviceList (exec : Exec) (s : Sys) : Option PanicValue × Sys :=
  let s := { s with attachedTable := s.attachedTable.Clear }
  let s := { s with detachedTable := s.detachedTable.Clear }
  match getDevices exec s.calls with
  | (.panic p, calls) => (some p, { s with calls := calls })
  | (.ret (_, some err), calls) => (some (.err err), { s with calls := calls })
  | (.ret (items, none), calls) =>
    let s := { s with calls := calls }
    let attachedItems := attachedOf items
    let detachedItems := detachedOf items
    let s := { s with detachedTable := setRows detachedItems 0 (setHeader s.detachedTable) }
    let s := { s with attachedTable := setRows attachedItems 0 (setHeader s.attachedTable) }
    (none, { s with
      uiState := { AttachedItems := attachedItems, DetachedItems := detachedItems } })

/-- The closure given to `detachedTable.SetSelectedFunc`. -/
def detachedSelected (exec : Exec) (s : Sys) (row : Int) : Option PanicValue × Sys :=
  match indexExpr s.uiState.DetachedItems (row - 1) with
  | none => (some (.runtime "index out of range".toList), s)
  | some device =>
    let bound : Option GoError × List Argv :=
      if device.Status = NotShared then bindDevice exec s.calls device.BusID
      else (none, s.calls)
    match bound with
    | (some err, calls) => (some (.err err), { s with calls := calls })
    | (none, calls) =>
      match attachDevice exec calls device.BusID with
      | (some err, calls) => (some (.err err), { s with calls := calls })
      | (none, calls) => updateDeviceList exec { s with calls := calls }

/-- The closure given to `attachedTable.SetSelectedFunc`. -/
def attachedSelected (exec : Exec) (s : Sys) (row : Int) : Option PanicValue × Sys :=
  match indexExpr s.uiState.AttachedItems (row - 1) with
  | none => (some (.runtime "index out of range".toList), s)
  | some device =>
    match detachDevice exec s.calls device.BusID with
    | (some err, calls) => (some (.err err), { s with calls := calls })
    | (none, calls) => updateDeviceList exec { s with calls := calls }

/-! ## Names used in the statements -/

/-- The argument vector of the listing command. -/
def listArgv : Argv := ["usbipd.exe".toList, "list".toList]

/-- The trimmed lines of a captured output (lines 188-192). -/
def linesOf (strOutput : GoString) : List GoString :=
  (Split strOutput '\n').map TrimSpace

/-- The text made of the given lines: the lines joined with newlines. -/
def textOf (lines : List GoString) : GoString :=
  Join lines ['\n']

/-- The device row of the scenario of the specification. -/
def scenarioRow : GoString := "1-1  1234:5678  Shared  USB Mouse".toList

/-- A header line as the tool prints it. -/
def headerLine : GoString := "BUSID  VID:PID    DEVICE    STATE".toList

/-- A tool that answers every call with the same captured output. -/
def constExec (strOutput : GoString) : Exec := fun _ _ => .ok strOutput

/-- A sample listing: a preamble line, the connected devices (three device rows, two blank
lines and a line of two fields), then the persisted section. -/
def sampleLines : List GoString :=
  ["usbipd list".toList,
   "Connected:".toList,
   headerLine,
   "1-1    1234:5678  USB Mouse                 Not shared".toList,
   "".toList,
   "2-3    0bda:5411  Generic USB Hub  Shared".toList,
   "garbage line".toList,
   "4-2    abcd:0001  Integrated Camera    Attached".toList,
   "   ".toList,
   "Persisted:".toList,
   "GUID                                  DEVICE".toList,
   "".toList]

/-- The argument vector of `bindDevice`. -/
def bindArgv (busid : GoString) : Argv :=
  ["usbipd.exe".toList, "bind".toList, "--busid".toList, busid]

/-- The argument vector of `attachDevice`. -/
def attachArgv (busid : GoString) : Argv :=
  ["usbipd.exe".toList, "attach".toList, "--wsl".toList, "--busid".toList, busid]

/-- The argument vector of `detachDevice`. -/
def detachArgv (busid : GoString) : Argv :=
  ["usbipd.exe".toList, "detach".toList, "--busid".toList, busid]

/-- The header row both tables get. -/
def headerCells : List TableCell :=
  [(NewTableCell "BusID".toList).SetSelectable false,
   (NewTableCell "DeviceID".toList).SetSelectable false,
   (NewTableCell "DeviceName".toList).SetSelectable false]

/-- The table row of a device. -/
def rowCells (v : Device) : List TableCell :=
  [NewTableCell v.BusID, NewTableCell v.DeviceID, NewTableCell v.DeviceName]

/-- The state a refresh leaves when it panics: both tables emptied, the listing call
recorded, `uiState` as it was. -/
def clearedBy (s : Sys) : Sys :=
  { s with attachedTable := [], detachedTable := [], calls := s.calls ++ [listArgv] }

/-- The state a refresh leaves when the listing gave `items`: both projections and both
tables are those of `items`. -/
def replacedBy (s : Sys) (items : List Device) : Sys :=
  { uiState :=
      { AttachedItems := items.filter (fun d => decide (d.Status = Attached))
        DetachedItems := items.filter (fun d => decide (d.Status ≠ Attached)) }
    attachedTable :=
      headerCells :: (items.filter (fun d => decide (d.Status = Attached))).map rowCells
    detachedTable :=
      headerCells :: (items.filter (fun d => decide (d.Status ≠ Attached))).map rowCells
    calls := s.calls ++ [listArgv] }

/-- The state of `main` before the first refresh (lines 29-48). -/
def initSys : Sys :=
  { uiState := { AttachedItems := [], DetachedItems := [] }
    attachedTable := [], detachedTable := [], calls := [] }

/-- The state after the first refresh, the tool printing the sample listing. -/
def sampleSys : Sys :=
  (updateDeviceList (constExec (textOf sampleLines)) initSys).2

/-- A tool whose every call fails with `exit status 1`. -/
def failingExec : Exec := fun _ _ => .error "exit status 1".toList

/-- A tool whose `bind` succeeds and whose every other call fails with `exit status 1`. -/
def bindOnlyExec : Exec := fun _ argv =>
  if argv.getD 1 [] = "bind".toList then .ok [] else .error "exit status 1".toList

/-- The first device of the sample listing: its last field is `shared`, not `Shared`. -/
def mouse : Device :=
  { BusID := "1-1".toList, DeviceID := "1234:5678".toList,
    DeviceName := "USB Mouse Not".toList, Status := NotShared }

/-- The second device of the sample listing. -/
def hub : Device :=
  { BusID := "2-3".toList, DeviceID := "0bda:5411".toList,
    DeviceName := "Generic USB Hub".toList, Status := Shared }

/-- The third device of the sample listing. -/
def camera : Device :=
  { BusID := "4-2".toList, DeviceID := "abcd:0001".toList,
    DeviceName := "Integrated Camera".toList, Status := Attached }

/-! ## Lemmas on the parser -/

theorem not_later_of_not_mem_drop {α : Type} (l : List α) (x : α) (i : Nat)
    (h : x ∉ l.drop (i + 1)) : ∀ k, i < k → l.get? k ≠ some x := by
  intro k hk hget
  apply h
  obtain ⟨n, rfl⟩ := Nat.exists_eq_add_of_le (Nat.succ_le_of_lt hk)
  have : (l.drop (i + 1)).get? n = some x := by
    rw [List.get?_eq_getElem?, List.getElem?_drop, ← List.get?_eq_getElem?]
    exact hget
  exact List.get?_mem this


theorem parseRows_eq (rows : List GoString) (items : List Device) :
    parseRows rows items = items ++ rows.filterMap parseRow := by
  induction rows generalizing items with
  | nil => simp [parseRows]
  | cons v rest ih =>
    cases h : parseRow v with
    | none => simp [parseRows, h, ih]
    | some d => simp [parseRows, h, ih]

theorem findRows_fst_absent (l : List GoString) (i b e : Int)
    (h : ∀ v ∈ l, v ≠ "Connected:".toList) : (findRows l i b e).1 = b := by
  induction l generalizing i b e with
  | nil => rfl
  | cons v rest ih =>
    have hv : v ≠ "Connected:".toList := h v (List.mem_cons_self _ _)
    have hr : ∀ w ∈ rest, w ≠ "Connected:".toList := fun w hw => h w (List.mem_cons_of_mem _ hw)
    simp only [findRows, if_neg hv]
    exact ih _ _ _ hr

theorem findRows_snd_absent (l : List GoString) (i b e : Int)
    (h : ∀ v ∈ l, v ≠ "Persisted:".toList) : (findRows l i b e).2 = e := by
  induction l generalizing i b e with
  | nil => rfl
  | cons v rest ih =>
    have hv : v ≠ "Persisted:".toList := h v (List.mem_cons_self _ _)
    have hr : ∀ w ∈ rest, w ≠ "Persisted:".toList := fun w hw => h w (List.mem_cons_of_mem _ hw)
    simp only [findRows, if_neg hv]
    exact ih _ _ _ hr

theorem findRows_fst_last (l : List GoString) (i b e : Int) (n : Nat)
    (h1 : l.get? n = some "Connected:".toList)
    (h2 : ∀ k, n < k → l.get? k ≠ some "Connected:".toList) :
    (findRows l i b e).1 = i + n + 2 := by
  induction l generalizing i b e n with
  | nil => simp at h1
  | cons v rest ih =>
    cases n with
    | zero =>
      have hv : v = "Connected:".toList := by simpa using h1
      have hr : ∀ w ∈ rest, w ≠ "Connected:".toList := by
        intro w hw hc
        obtain ⟨k, hk⟩ := List.get?_of_mem hw
        exact h2 (k + 1) (Nat.succ_pos k) (by simpa [hc] using hk)
      simp only [findRows, if_pos hv]
      rw [findRows_fst_absent rest _ _ _ hr]
      simp
    | succ m =>
      have h1r : rest.get? m = some "Connected:".toList := by simpa using h1
      have h2r : ∀ k, m < k → rest.get? k ≠ some "Connected:".toList := by
        intro k hk
        have := h2 (k + 1) (Nat.succ_lt_succ hk)
        simpa using this
      simp only [findRows]
      rw [ih _ _ _ m h1r h2r]
      push_cast
      ring

theorem findRows_snd_last (l : List GoString) (i b e : Int) (n : Nat)
    (h1 : l.get? n = some "Persisted:".toList)
    (h2 : ∀ k, n < k → l.get? k ≠ some "Persisted:".toList) :
    (findRows l i b e).2 = i + n := by
  induction l generalizing i b e n with
  | nil => simp at h1
  | cons v rest ih =>
    cases n with
    | zero =>
      have hv : v = "Persisted:".toList := by simpa using h1
      have hr : ∀ w ∈ rest, w ≠ "Persisted:".toList := by
        intro w hw hc
        obtain ⟨k, hk⟩ := List.get?_of_mem hw
        exact h2 (k + 1) (Nat.succ_pos k) (by simpa [hc] using hk)
      simp only [findRows, if_pos hv]
      rw [findRows_snd_absent rest _ _ _ hr]
      simp
    | succ m =>
      have h1r : rest.get? m = some "Persisted:".toList := by simpa using h1
      have h2r : ∀ k, m < k → rest.get? k ≠ some "Persisted:".toList := by
        intro k hk
        have := h2 (k + 1) (Nat.succ_lt_succ hk)
        simpa using this
      simp only [findRows]
      rw [ih _ _ _ m h1r h2r]
      push_cast
      ring

theorem getDevices_of_output (exec : Exec) (calls : List Argv) (strOutput : GoString)
    (hout : exec calls listArgv = .ok strOutput) :
    getDevices exec calls = (parseOutput strOutput, calls ++ [listArgv]) := by
  have hout2 : exec calls ["usbipd.exe".toList, "list".toList] = .ok strOutput := hout
  unfold getDevices Output
  rw [hout2]
  rfl

theorem parseOutput_eq (strOutput : GoString) :
    parseOutput strOutput =
      if (findRows (linesOf strOutput) 0 (-1) (-1)).1 = -1 ∨
          (findRows (linesOf strOutput) 0 (-1) (-1)).2 = -1 then
        .ret ([], some markerError)
      else
        match sliceExpr (linesOf strOutput) (findRows (linesOf strOutput) 0 (-1) (-1)).1
            (findRows (linesOf strOutput) 0 (-1) (-1)).2 with
        | none => .panic (.runtime "slice bounds out of range".toList)
        | some rows => .ret (parseRows rows [], none) := rfl

theorem parseOutput_missing (strOutput : GoString)
    (h : (∀ v ∈ linesOf strOutput, v ≠ "Connected:".toList) ∨
      (∀ v ∈ linesOf strOutput, v ≠ "Persisted:".toList)) :
    parseOutput strOutput = .ret ([], some markerError) := by
  rw [parseOutput_eq]
  apply if_pos
  rcases h with h | h
  · exact Or.inl (findRows_fst_absent _ _ _ _ h)
  · exact Or.inr (findRows_snd_absent _ _ _ _ h)

theorem parseOutput_range (strOutput : GoString) (i j : Nat)
    (hi : (linesOf strOutput).get? i = some "Connected:".toList)
    (hi2 : ∀ k, i < k → (linesOf strOutput).get? k ≠ some "Connected:".toList)
    (hj : (linesOf strOutput).get? j = some "Persisted:".toList)
    (hj2 : ∀ k, j < k → (linesOf strOutput).get? k ≠ some "Persisted:".toList)
    (hij : i + 2 ≤ j) :
    parseOutput strOutput =
      .ret ((((linesOf strOutput).drop (i + 2)).take (j - (i + 2))).filterMap parseRow, none) := by
  have hb := findRows_fst_last (linesOf strOutput) 0 (-1) (-1) i hi hi2
  have he := findRows_snd_last (linesOf strOutput) 0 (-1) (-1) j hj hj2
  have hjlen : j < (linesOf strOutput).length := by
    by_contra hc
    have := List.get?_eq_none.2 (Nat.le_of_not_lt hc)
    rw [this] at hj
    cases hj
  rw [parseOutput_eq, hb, he]
  have hcond : ¬ ((0 : Int) + i + 2 = -1 ∨ (0 : Int) + j = -1) := by omega
  rw [if_neg hcond]
  have hs : sliceExpr (linesOf strOutput) (0 + (i : Int) + 2) (0 + (j : Int)) =
      some (((linesOf strOutput).drop (i + 2)).take (j - (i + 2))) := by
    unfold sliceExpr
    have hc : (0 : Int) ≤ 0 + (i : Int) + 2 ∧ (0 : Int) + (i : Int) + 2 ≤ 0 + (j : Int) ∧
        (0 : Int) + (j : Int) ≤ ((linesOf strOutput).length : Int) := by omega
    rw [if_pos hc]
    have e1 : ((0 : Int) + (i : Int) + 2).toNat = i + 2 := by omega
    have e2 : ((0 : Int) + (j : Int)).toNat = j := by omega
    rw [e1, e2]
  rw [hs]
  simp [parseRows_eq]

theorem splitGo_nosep (sep : Char) (a cur : List Char) (h : sep ∉ a) :
    splitGo sep a cur = [cur ++ a] := by
  induction a generalizing cur with
  | nil => simp [splitGo]
  | cons c cs ih =>
    have hc : c ≠ sep := fun e => h (by simp [e])
    have hcs : sep ∉ cs := fun e => h (List.mem_cons_of_mem _ e)
    simp only [splitGo, if_neg hc]
    rw [ih _ hcs]
    simp

theorem splitGo_sep (sep : Char) (a cur rest : List Char) (h : sep ∉ a) :
    splitGo sep (a ++ sep :: rest) cur = (cur ++ a) :: splitGo sep rest [] := by
  induction a generalizing cur with
  | nil => simp [splitGo]
  | cons c cs ih =>
    have hc : c ≠ sep := fun e => h (by simp [e])
    have hcs : sep ∉ cs := fun e => h (List.mem_cons_of_mem _ e)
    rw [List.cons_append, splitGo, if_neg hc, ih _ hcs]
    simp

/-- Splitting at the separator undoes joining with it, for pieces that do not contain it. -/
theorem Split_Join (sep : Char) (ls : List GoString) (hne : ls ≠ [])
    (h : ∀ l ∈ ls, sep ∉ l) : Split (Join ls [sep]) sep = ls := by
  induction ls with
  | nil => exact absurd rfl hne
  | cons a rest ih =>
    cases rest with
    | nil =>
      have ha : sep ∉ a := h a (List.mem_cons_self _ _)
      simp only [Join, Split]
      rw [splitGo_nosep sep a [] ha]
      simp
    | cons b rest2 =>
      have ha : sep ∉ a := h a (List.mem_cons_self _ _)
      have hr : ∀ l ∈ b :: rest2, sep ∉ l := fun l hl => h l (List.mem_cons_of_mem _ hl)
      have ih2 := ih (List.cons_ne_nil _ _) hr
      simp only [Join, Split, List.append_assoc, List.singleton_append] at ih2 ⊢
      rw [splitGo_sep sep a [] _ ha, ih2]
      simp

theorem linesOf_textOf (ls : List GoString) (hne : ls ≠ [])
    (h : ∀ l ∈ ls, '\n' ∉ l) : linesOf (textOf ls) = ls.map TrimSpace := by
  unfold linesOf textOf
  rw [Split_Join '\n' ls hne h]

theorem last_drop2 {α : Type} (cols : List α) (dflt : α) (h : 3 ≤ cols.length) :
    some ((cols.drop 2).getD ((cols.drop 2).length - 1) dflt) = cols.getLast? := by
  rw [List.getLast?_eq_getElem?, List.getD_eq_getElem?_getD, List.getElem?_drop, List.length_drop]
  have e : 2 + (cols.length - 2 - 1) = cols.length - 1 := by omega
  rw [e]
  have hlt : cols.length - 1 < cols.length := by omega
  rw [List.getElem?_eq_getElem hlt]
  simp

theorem parseRow_eq_none (v : GoString) (h : (Fields v).length < 3) : parseRow v = none := by
  unfold parseRow
  exact if_pos h

theorem parseRow_eq_some (v : GoString) (h : 3 ≤ (Fields v).length) :
    parseRow v = some
      { BusID := (Fields v).getD 0 []
        DeviceID := (Fields v).getD 1 []
        DeviceName := Join ((Fields v).drop 2).dropLast " ".toList
        Status :=
          if ((Fields v).drop 2).getD (((Fields v).drop 2).length - 1) [] = "Shared".toList then
            Shared
          else if ((Fields v).drop 2).getD (((Fields v).drop 2).length - 1) [] =
              "Attached".toList then Attached
          else NotShared } := by
  unfold parseRow
  rw [List.dropLast_eq_take]
  exact if_neg (by omega)

theorem parseRow_some_length (v : GoString) (d : Device) (h : parseRow v = some d) :
    3 ≤ (Fields v).length := by
  by_contra hc
  rw [parseRow_eq_none v (by omega)] at h
  cases h

theorem filterMap_parseRow_ids (rows : List GoString) :
    (rows.filterMap parseRow).map (fun d => (d.BusID, d.DeviceID)) =
      (rows.filter (fun v => decide (3 ≤ (Fields v).length))).map
        (fun v => ((Fields v).getD 0 [], (Fields v).getD 1 [])) := by
  induction rows with
  | nil => rfl
  | cons v rest ih =>
    by_cases h : 3 ≤ (Fields v).length
    · rw [List.filterMap_cons, parseRow_eq_some v h, List.filter_cons_of_pos (by simpa using h)]
      simp only [List.map_cons, ih]
    · rw [List.filterMap_cons, parseRow_eq_none v (by omega),
        List.filter_cons_of_neg (by simpa using h)]
      exact ih

/-! ## The parser: the scenario, the rows, the markers -/

/-- C1, as stated, fails: for the listing of the scenario (the line `Connected:`, a header
line, the line `1-1  1234:5678  Shared  USB Mouse`, the line `Persisted:`) `getDevices` does
not return the single device with state `Shared` and name `USB Mouse`. -/
theorem scenario_claimed_device_not_returned :
    (getDevices (constExec (textOf
        ["Connected:".toList, headerLine, scenarioRow, "Persisted:".toList])) []).1 ≠
      .ret ([{ BusID := "1-1".toList, DeviceID := "1234:5678".toList,
               DeviceName := "USB Mouse".toList, Status := Shared }], none) := by
  decide

/-- C1, amended: for the listing made of the line `Connected:`, one header line (any line
that does not itself trim to `Connected:`), the line `1-1  1234:5678  Shared  USB Mouse` and
the line `Persisted:`, `getDevices` returns exactly one device, with busID `1-1`, deviceID
`1234:5678`, state `NotShared` (the last field is `Mouse`) and name `Shared USB` (the fields
after the second without the last one). -/
theorem scenario_parse (exec : Exec) (calls : List Argv) (header : GoString)
    (hnl : '\n' ∉ header) (hc : TrimSpace header ≠ "Connected:".toList)
    (hout : exec calls listArgv =
      .ok (textOf ["Connected:".toList, header, scenarioRow, "Persisted:".toList])) :
    (getDevices exec calls).1 =
      .ret ([{ BusID := "1-1".toList, DeviceID := "1234:5678".toList,
               DeviceName := "Shared USB".toList, Status := NotShared }], none) := by
  rw [getDevices_of_output exec calls _ hout]
  have hl : linesOf (textOf ["Connected:".toList, header, scenarioRow, "Persisted:".toList]) =
      ["Connected:".toList, TrimSpace header, scenarioRow, "Persisted:".toList] := by
    rw [linesOf_textOf _ (List.cons_ne_nil _ _)]
    · have e1 : TrimSpace "Connected:".toList = "Connected:".toList := by decide
      have e2 : TrimSpace scenarioRow = scenarioRow := by decide
      have e3 : TrimSpace "Persisted:".toList = "Persisted:".toList := by decide
      simp only [List.map_cons, List.map_nil, e1, e2, e3]
    · intro l hl
      simp only [List.mem_cons, List.mem_singleton, List.not_mem_nil, or_false] at hl
      rcases hl with rfl | rfl | rfl | rfl
      · decide
      · exact hnl
      · decide
      · decide
  dsimp only
  have hrow : parseRow scenarioRow = some
      { BusID := "1-1".toList, DeviceID := "1234:5678".toList,
        DeviceName := "Shared USB".toList, Status := NotShared } := by decide
  have h2 : scenarioRow ≠ "Connected:".toList := by decide
  rw [parseOutput_range _ 0 3 (by rw [hl]; rfl) _ (by rw [hl]; rfl) _ (by omega), hl]
  · simp only [List.drop_succ_cons, List.drop_zero, List.take_succ_cons, List.take_zero,
      List.filterMap_cons, List.filterMap_nil, hrow]
  · intro k hk
    rw [hl]
    match k, hk with
    | 1, _ => simpa using hc
    | 2, _ => simpa using h2
    | 3, _ => simp
    | (n + 4), _ => simp
  · intro k hk
    rw [hl]
    have : 4 ≤ k := hk
    obtain ⟨n, rfl⟩ := Nat.exists_eq_add_of_le this
    simp [Nat.add_comm 4 n]

/-- A concrete instance of the scenario: the header line `BUSID  VID:PID    DEVICE    STATE`. -/
theorem scenario_parse_witness :
    '\n' ∉ headerLine ∧ TrimSpace headerLine ≠ "Connected:".toList ∧
    (getDevices (constExec (textOf
        ["Connected:".toList, headerLine, scenarioRow, "Persisted:".toList])) []).1 =
      .ret ([{ BusID := "1-1".toList, DeviceID := "1234:5678".toList,
               DeviceName := "Shared USB".toList, Status := NotShared }], none) :=
  ⟨by decide, by decide,
    scenario_parse (constExec (textOf
        ["Connected:".toList, headerLine, scenarioRow, "Persisted:".toList])) [] headerLine
      (by decide) (by decide) rfl⟩

/-- C2, as stated, fails: the row `1-1 1234:5678 USB Mouse` has state `NotShared` and its
fields after the second, joined with spaces, are `USB Mouse`, but the parsed name is `USB`,
both for the row alone and through `getDevices`. -/
theorem not_shared_row_name_loses_last_field :
    parseRow "1-1 1234:5678 USB Mouse".toList =
      some { BusID := "1-1".toList, DeviceID := "1234:5678".toList,
             DeviceName := "USB".toList, Status := NotShared } ∧
    Join ((Fields "1-1 1234:5678 USB Mouse".toList).drop 2) " ".toList = "USB Mouse".toList ∧
    "USB".toList ≠ "USB Mouse".toList ∧
    (getDevices (constExec (textOf ["Connected:".toList, headerLine,
        "1-1 1234:5678 USB Mouse".toList, "Persisted:".toList])) []).1 =
      .ret ([{ BusID := "1-1".toList, DeviceID := "1234:5678".toList,
               DeviceName := "USB".toList, Status := NotShared }], none) := by
  decide

/-- C2, amended: for every row with at least 3 whitespace-delimited fields a device is
parsed, and its name is the fields after the second except the last one, joined with single
spaces, whatever the last field is (the last field is left out of the name also when the
state is `NotShared`). -/
theorem name_is_fields_without_last (v : GoString) (h : 3 ≤ (Fields v).length) :
    ∃ d, parseRow v = some d ∧
      d.DeviceName = Join ((Fields v).drop 2).dropLast " ".toList := by
  rw [parseRow_eq_some v h]
  exact ⟨_, rfl, rfl⟩

/-- A concrete instance of the name rule: the row `1-1 1234:5678 USB Mouse Shared`. -/
theorem name_is_fields_without_last_witness :
    3 ≤ (Fields "1-1 1234:5678 USB Mouse Shared".toList).length ∧
    ∃ d, parseRow "1-1 1234:5678 USB Mouse Shared".toList = some d ∧
      d.DeviceName =
        Join ((Fields "1-1 1234:5678 USB Mouse Shared".toList).drop 2).dropLast " ".toList :=
  ⟨by decide, name_is_fields_without_last "1-1 1234:5678 USB Mouse Shared".toList (by decide)⟩

/-- C3 fails on the code: with both markers present, `Persisted:` directly after
`Connected:` (or before it) makes the slice expression `strOutputList[begnRow:endRow]` panic
(`begnRow` is 2 and `endRow` is 1, or `begnRow` is 4 and `endRow` is 0): no device list and
no error are returned. -/
theorem markers_adjacent_panics :
    "Connected:".toList ∈ linesOf (textOf ["Connected:".toList, "Persisted:".toList]) ∧
    "Persisted:".toList ∈ linesOf (textOf ["Connected:".toList, "Persisted:".toList]) ∧
    findRows (linesOf (textOf ["Connected:".toList, "Persisted:".toList])) 0 (-1) (-1) = (2, 1) ∧
    getDevices (constExec (textOf ["Connected:".toList, "Persisted:".toList])) [] =
      (.panic (.runtime "slice bounds out of range".toList), [listArgv]) ∧
    findRows (linesOf (textOf ["Persisted:".toList, headerLine, "Connected:".toList]))
      0 (-1) (-1) = (4, 0) ∧
    getDevices (constExec (textOf ["Persisted:".toList, headerLine, "Connected:".toList])) [] =
      (.panic (.runtime "slice bounds out of range".toList), [listArgv]) := by
  decide

/-- C4: when no trimmed line of the captured listing equals `Connected:`, or none equals
`Persisted:`, `getDevices` returns the empty device list together with the error
`Could not find the beginning or end of the device list`. -/
theorem missing_marker_is_error (exec : Exec) (calls : List Argv) (strOutput : GoString)
    (hout : exec calls listArgv = .ok strOutput)
    (h : (∀ v ∈ linesOf strOutput, v ≠ "Connected:".toList) ∨
      (∀ v ∈ linesOf strOutput, v ≠ "Persisted:".toList)) :
    (getDevices exec calls).1 = .ret ([], some markerError) := by
  rw [getDevices_of_output exec calls _ hout]
  exact parseOutput_missing strOutput h

/-- A concrete instance of the marker rule: a listing with `Connected:` and without
`Persisted:`. -/
theorem missing_marker_is_error_witness :
    ((∀ v ∈ linesOf (textOf ["Connected:".toList, headerLine, scenarioRow]),
        v ≠ "Connected:".toList) ∨
      (∀ v ∈ linesOf (textOf ["Connected:".toList, headerLine, scenarioRow]),
        v ≠ "Persisted:".toList)) ∧
    (getDevices (constExec (textOf ["Connected:".toList, headerLine, scenarioRow])) []).1 =
      .ret ([], some markerError) :=
  ⟨Or.inr (by decide),
    missing_marker_is_error (constExec (textOf ["Connected:".toList, headerLine, scenarioRow]))
      [] _ rfl (Or.inr (by decide))⟩

/-- C5: when the last `Connected:` line is line `i`, the last `Persisted:` line is line `j`
and `i + 2 ≤ j`, `getDevices` returns, without error, the devices parsed from the lines
`i + 2` up to `j` (exclusive): one per line with at least 3 fields, in input order, with
busID the first field and deviceID the second; the lines with fewer fields give nothing. -/
theorem one_device_per_row (exec : Exec) (calls : List Argv) (strOutput : GoString)
    (i j : Nat)
    (hout : exec calls listArgv = .ok strOutput)
    (hi : (linesOf strOutput).get? i = some "Connected:".toList)
    (hi2 : "Connected:".toList ∉ (linesOf strOutput).drop (i + 1))
    (hj : (linesOf strOutput).get? j = some "Persisted:".toList)
    (hj2 : "Persisted:".toList ∉ (linesOf strOutput).drop (j + 1))
    (hij : i + 2 ≤ j) :
    ∃ devices, (getDevices exec calls).1 = .ret (devices, none) ∧
      devices = (((linesOf strOutput).drop (i + 2)).take (j - (i + 2))).filterMap parseRow ∧
      devices.map (fun d => (d.BusID, d.DeviceID)) =
        ((((linesOf strOutput).drop (i + 2)).take (j - (i + 2))).filter
          (fun v => decide (3 ≤ (Fields v).length))).map
          (fun v => ((Fields v).getD 0 [], (Fields v).getD 1 [])) := by
  rw [getDevices_of_output exec calls _ hout]
  refine ⟨_, parseOutput_range strOutput i j hi (not_later_of_not_mem_drop _ _ _ hi2) hj
    (not_later_of_not_mem_drop _ _ _ hj2) hij, rfl, ?_⟩
  exact filterMap_parseRow_ids _

/-- A concrete instance of the row rule: the sample listing, whose range holds three device
rows, two blank lines and a line of two fields. -/
theorem one_device_per_row_witness :
    (linesOf (textOf sampleLines)).get? 1 = some "Connected:".toList ∧
    "Connected:".toList ∉ (linesOf (textOf sampleLines)).drop (1 + 1) ∧
    (linesOf (textOf sampleLines)).get? 9 = some "Persisted:".toList ∧
    "Persisted:".toList ∉ (linesOf (textOf sampleLines)).drop (9 + 1) ∧
    1 + 2 ≤ 9 ∧
    ∃ devices, (getDevices (constExec (textOf sampleLines)) []).1 = .ret (devices, none) ∧
      devices =
        (((linesOf (textOf sampleLines)).drop (1 + 2)).take (9 - (1 + 2))).filterMap parseRow ∧
      devices.map (fun d => (d.BusID, d.DeviceID)) =
        ((((linesOf (textOf sampleLines)).drop (1 + 2)).take (9 - (1 + 2))).filter
          (fun v => decide (3 ≤ (Fields v).length))).map
          (fun v => ((Fields v).getD 0 [], (Fields v).getD 1 [])) :=
  ⟨by decide, by decide, by decide, by decide, by decide,
    one_device_per_row (constExec (textOf sampleLines)) [] (textOf sampleLines) 1 9 rfl
      (by decide) (by decide) (by decide) (by decide) (by decide)⟩

/-- C6: the state of a parsed row is decided by its last field alone, compared literally:
`Shared` exactly when the last field is `Shared`, `Attached` exactly when it is `Attached`,
`NotShared` in every other case; it is always one of the three constants. -/
theorem status_from_last_field (v : GoString) (d : Device) (h : parseRow v = some d) :
    (d.Status = Shared ↔ (Fields v).getLast? = some "Shared".toList) ∧
    (d.Status = Attached ↔ (Fields v).getLast? = some "Attached".toList) ∧
    (d.Status = NotShared ↔ ((Fields v).getLast? ≠ some "Shared".toList ∧
      (Fields v).getLast? ≠ some "Attached".toList)) ∧
    (d.Status = NotShared ∨ d.Status = Shared ∨ d.Status = Attached) := by
  have hl := parseRow_some_length v d h
  rw [parseRow_eq_some v hl] at h
  have hlast := last_drop2 (Fields v) ([] : GoString) hl
  cases h
  rw [← hlast]
  have hsa : "Shared".toList ≠ "Attached".toList := by decide
  generalize ((Fields v).drop 2).getD (((Fields v).drop 2).length - 1) [] = x
  generalize "Shared".toList = S at hsa ⊢
  generalize "Attached".toList = A at hsa ⊢
  by_cases h1 : x = S
  · have h2 : x ≠ A := fun e => hsa (h1.symm.trans e)
    simp [h1, h2, hsa, Shared, Attached, NotShared]
  · by_cases h2 : x = A
    · simp [h1, h2, hsa, Ne.symm hsa, Shared, Attached, NotShared]
    · simp [h1, h2, Shared, Attached, NotShared]

/-- A concrete instance of the status rule: a row whose name ends in the word `Shared`,
after a status word in another position. -/
theorem status_from_last_field_witness :
    parseRow "3-1 0a0b:0c0d Attached Drive Shared".toList =
      some { BusID := "3-1".toList, DeviceID := "0a0b:0c0d".toList,
             DeviceName := "Attached Drive".toList, Status := Shared } ∧
    ((Shared = Shared ↔
        (Fields "3-1 0a0b:0c0d Attached Drive Shared".toList).getLast? =
          some "Shared".toList) ∧
      (Shared = Attached ↔
        (Fields "3-1 0a0b:0c0d Attached Drive Shared".toList).getLast? =
          some "Attached".toList) ∧
      (Shared = NotShared ↔
        ((Fields "3-1 0a0b:0c0d Attached Drive Shared".toList).getLast? ≠
            some "Shared".toList ∧
          (Fields "3-1 0a0b:0c0d Attached Drive Shared".toList).getLast? ≠
            some "Attached".toList)) ∧
      (Shared = NotShared ∨ Shared = Shared ∨ Shared = Attached)) :=
  ⟨by decide,
    status_from_last_field "3-1 0a0b:0c0d Attached Drive Shared".toList
      { BusID := "3-1".toList, DeviceID := "0a0b:0c0d".toList,
        DeviceName := "Attached Drive".toList, Status := Shared } (by decide)⟩

/-! ## Lemmas on the projections, the tables and the handlers -/

theorem foldl_append_filter {α : Type} (p : α → Prop) [DecidablePred p] (items acc : List α) :
    items.foldl (fun acc v => if p v then acc ++ [v] else acc) acc =
      acc ++ items.filter (fun v => decide (p v)) := by
  induction items generalizing acc with
  | nil => simp
  | cons v rest ih =>
    by_cases h : p v
    · simp [List.foldl_cons, h, ih]
    · simp [List.foldl_cons, h, ih]

theorem attachedOf_eq (items : List Device) :
    attachedOf items = items.filter (fun d => decide (d.Status = Attached)) := by
  unfold attachedOf
  rw [foldl_append_filter (fun d : Device => d.Status = Attached)]
  rfl

theorem detachedOf_eq (items : List Device) :
    detachedOf items = items.filter (fun d => decide (d.Status ≠ Attached)) := by
  unfold detachedOf
  rw [foldl_append_filter (fun d : Device => d.Status ≠ Attached)]
  rfl

theorem SetCell_new_row (t : Table) (c : TableCell) :
    t.SetCell t.length 0 c = t ++ [[c]] := by
  unfold Table.SetCell
  simp [List.getD_eq_getElem?_getD, List.set_append]

theorem SetCell_last_row (t : Table) (row : List TableCell) (c : TableCell) :
    (t ++ [row]).SetCell t.length row.length c = t ++ [row ++ [c]] := by
  unfold Table.SetCell
  simp [List.getD_eq_getElem?_getD, List.set_append]

theorem setRows_eq (items : List Device) (i : Nat) (t : Table) (h : t.length = i + 1) :
    setRows items i t = t ++ items.map rowCells := by
  induction items generalizing i t with
  | nil => simp [setRows]
  | cons v rest ih =>
    have e1 := SetCell_new_row t (NewTableCell v.BusID)
    have e2 := SetCell_last_row t [NewTableCell v.BusID] (NewTableCell v.DeviceID)
    have e3 := SetCell_last_row t [NewTableCell v.BusID, NewTableCell v.DeviceID]
      (NewTableCell v.DeviceName)
    rw [h] at e1 e2 e3
    simp only [List.length_cons, List.length_nil, List.singleton_append, List.cons_append,
      List.nil_append, Nat.zero_add] at e2 e3
    rw [setRows, e1, e2, e3, ih (i + 1) _ (by simp [h])]
    simp [rowCells]

theorem setHeader_nil : setHeader [] = [headerCells] := by
  decide

theorem table_of_items (items : List Device) :
    setRows items 0 (setHeader []) = headerCells :: items.map rowCells := by
  rw [setHeader_nil, setRows_eq items 0 [headerCells] rfl]
  rfl

theorem getDevices_calls (exec : Exec) (calls : List Argv) :
    (getDevices exec calls).2 = calls ++ [listArgv] := by
  unfold getDevices Output
  cases exec calls ["usbipd.exe".toList, "list".toList] <;> rfl

theorem updateDeviceList_eq (exec : Exec) (s : Sys) :
    updateDeviceList exec s =
      match (getDevices exec s.calls).1 with
      | .panic p => (some p, clearedBy s)
      | .ret (_, some err) => (some (.err err), clearedBy s)
      | .ret (items, none) => (none, replacedBy s items) := by
  have hc := getDevices_calls exec s.calls
  unfold updateDeviceList
  dsimp only
  rcases h : getDevices exec s.calls with ⟨r, c⟩
  rw [h] at hc
  dsimp only at hc
  subst hc
  cases r with
  | panic p => rfl
  | ret val =>
    obtain ⟨items, err⟩ := val
    cases err with
    | some err => rfl
    | none =>
      simp only [Table.Clear, attachedOf_eq, detachedOf_eq, table_of_items, replacedBy]

theorem bindDevice_eq (exec : Exec) (calls : List Argv) (busid : GoString) :
    bindDevice exec calls busid =
      (match exec calls (bindArgv busid) with
        | .error err => some err
        | .ok _ => none, calls ++ [bindArgv busid]) := by
  unfold bindDevice Output bindArgv
  cases exec calls ["usbipd.exe".toList, "bind".toList, "--busid".toList, busid] <;> rfl

theorem attachDevice_eq (exec : Exec) (calls : List Argv) (busid : GoString) :
    attachDevice exec calls busid =
      (match exec calls (attachArgv busid) with
        | .error err => some err
        | .ok _ => none, calls ++ [attachArgv busid]) := by
  unfold attachDevice Output attachArgv
  cases exec calls
    ["usbipd.exe".toList, "attach".toList, "--wsl".toList, "--busid".toList, busid] <;> rfl

theorem detachDevice_eq (exec : Exec) (calls : List Argv) (busid : GoString) :
    detachDevice exec calls busid =
      (match exec calls (detachArgv busid) with
        | .error err => some err
        | .ok _ => none, calls ++ [detachArgv busid]) := by
  unfold detachDevice Output detachArgv
  cases exec calls ["usbipd.exe".toList, "detach".toList, "--busid".toList, busid] <;> rfl

theorem updateDeviceList_calls (exec : Exec) (s : Sys) :
    (updateDeviceList exec s).2.calls = s.calls ++ [listArgv] := by
  rw [updateDeviceList_eq]
  cases (getDevices exec s.calls).1 with
  | panic p => rfl
  | ret val =>
    obtain ⟨items, err⟩ := val
    cases err <;> rfl

theorem updateDeviceList_panic_uiState (exec : Exec) (s : Sys) (p : PanicValue)
    (h : (updateDeviceList exec s).1 = some p) :
    (updateDeviceList exec s).2.uiState = s.uiState := by
  rw [updateDeviceList_eq] at h ⊢
  cases hg : (getDevices exec s.calls).1 with
  | panic p => rfl
  | ret val =>
    obtain ⟨items, err⟩ := val
    cases err with
    | some err => rfl
    | none =>
      rw [hg] at h
      cases h

theorem detachedSelected_bind_fails (exec : Exec) (s : Sys) (row : Int) (d : Device)
    (e : GoError)
    (hd : indexExpr s.uiState.DetachedItems (row - 1) = some d) (hs : d.Status = NotShared)
    (hb : exec s.calls (bindArgv d.BusID) = .error e) :
    detachedSelected exec s row =
      (some (.err e), { s with calls := s.calls ++ [bindArgv d.BusID] }) := by
  unfold detachedSelected
  rw [hd]
  dsimp only
  rw [if_pos hs, bindDevice_eq, hb]

theorem detachedSelected_bind_attach_fails (exec : Exec) (s : Sys) (row : Int) (d : Device)
    (e : GoError) (out : GoString)
    (hd : indexExpr s.uiState.DetachedItems (row - 1) = some d) (hs : d.Status = NotShared)
    (hb : exec s.calls (bindArgv d.BusID) = .ok out)
    (ha : exec (s.calls ++ [bindArgv d.BusID]) (attachArgv d.BusID) = .error e) :
    detachedSelected exec s row =
      (some (.err e), { s with calls := s.calls ++ [bindArgv d.BusID, attachArgv d.BusID] }) := by
  unfold detachedSelected
  rw [hd]
  dsimp only
  rw [if_pos hs, bindDevice_eq, hb]
  dsimp only
  rw [attachDevice_eq, ha]
  simp

theorem detachedSelected_bind_attach (exec : Exec) (s : Sys) (row : Int) (d : Device)
    (out out2 : GoString)
    (hd : indexExpr s.uiState.DetachedItems (row - 1) = some d) (hs : d.Status = NotShared)
    (hb : exec s.calls (bindArgv d.BusID) = .ok out)
    (ha : exec (s.calls ++ [bindArgv d.BusID]) (attachArgv d.BusID) = .ok out2) :
    detachedSelected exec s row =
      updateDeviceList exec
        { s with calls := s.calls ++ [bindArgv d.BusID, attachArgv d.BusID] } := by
  unfold detachedSelected
  rw [hd]
  dsimp only
  rw [if_pos hs, bindDevice_eq, hb]
  dsimp only
  rw [attachDevice_eq, ha]
  simp

theorem detachedSelected_attach_fails (exec : Exec) (s : Sys) (row : Int) (d : Device)
    (e : GoError)
    (hd : indexExpr s.uiState.DetachedItems (row - 1) = some d) (hs : d.Status ≠ NotShared)
    (ha : exec s.calls (attachArgv d.BusID) = .error e) :
    detachedSelected exec s row =
      (some (.err e), { s with calls := s.calls ++ [attachArgv d.BusID] }) := by
  unfold detachedSelected
  rw [hd]
  dsimp only
  rw [if_neg hs]
  dsimp only
  rw [attachDevice_eq, ha]

theorem detachedSelected_attach (exec : Exec) (s : Sys) (row : Int) (d : Device)
    (out : GoString)
    (hd : indexExpr s.uiState.DetachedItems (row - 1) = some d) (hs : d.Status ≠ NotShared)
    (ha : exec s.calls (attachArgv d.BusID) = .ok out) :
    detachedSelected exec s row =
      updateDeviceList exec { s with calls := s.calls ++ [attachArgv d.BusID] } := by
  unfold detachedSelected
  rw [hd]
  dsimp only
  rw [if_neg hs]
  dsimp only
  rw [attachDevice_eq, ha]

theorem attachedSelected_detach_fails (exec : Exec) (s : Sys) (row : Int) (d : Device)
    (e : GoError)
    (hd : indexExpr s.uiState.AttachedItems (row - 1) = some d)
    (hx : exec s.calls (detachArgv d.BusID) = .error e) :
    attachedSelected exec s row =
      (some (.err e), { s with calls := s.calls ++ [detachArgv d.BusID] }) := by
  unfold attachedSelected
  rw [hd]
  dsimp only
  rw [detachDevice_eq, hx]

theorem attachedSelected_detach (exec : Exec) (s : Sys) (row : Int) (d : Device)
    (out : GoString)
    (hd : indexExpr s.uiState.AttachedItems (row - 1) = some d)
    (hx : exec s.calls (detachArgv d.BusID) = .ok out) :
    attachedSelected exec s row =
      updateDeviceList exec { s with calls := s.calls ++ [detachArgv d.BusID] } := by
  unfold attachedSelected
  rw [hd]
  dsimp only
  rw [detachDevice_eq, hx]

theorem detachedSelected_panic_uiState (exec : Exec) (s : Sys) (row : Int) (p : PanicValue)
    (h : (detachedSelected exec s row).1 = some p) :
    (detachedSelected exec s row).2.uiState = s.uiState := by
  cases hd : indexExpr s.uiState.DetachedItems (row - 1) with
  | none =>
    unfold detachedSelected
    rw [hd]
  | some d =>
    by_cases hs : d.Status = NotShared
    · cases hb : exec s.calls (bindArgv d.BusID) with
      | error e => rw [detachedSelected_bind_fails exec s row d e hd hs hb]
      | ok out =>
        cases ha : exec (s.calls ++ [bindArgv d.BusID]) (attachArgv d.BusID) with
        | error e => rw [detachedSelected_bind_attach_fails exec s row d e out hd hs hb ha]
        | ok out2 =>
          rw [detachedSelected_bind_attach exec s row d out out2 hd hs hb ha] at h ⊢
          exact updateDeviceList_panic_uiState exec _ p h
    · cases ha : exec s.calls (attachArgv d.BusID) with
      | error e => rw [detachedSelected_attach_fails exec s row d e hd hs ha]
      | ok out =>
        rw [detachedSelected_attach exec s row d out hd hs ha] at h ⊢
        exact updateDeviceList_panic_uiState exec _ p h

theorem attachedSelected_panic_uiState (exec : Exec) (s : Sys) (row : Int) (p : PanicValue)
    (h : (attachedSelected exec s row).1 = some p) :
    (attachedSelected exec s row).2.uiState = s.uiState := by
  cases hd : indexExpr s.uiState.AttachedItems (row - 1) with
  | none =>
    unfold attachedSelected
    rw [hd]
  | some d =>
    cases hx : exec s.calls (detachArgv d.BusID) with
    | error e => rw [attachedSelected_detach_fails exec s row d e hd hx]
    | ok out =>
      rw [attachedSelected_detach exec s row d out hd hx] at h ⊢
      exact updateDeviceList_panic_uiState exec _ p h

theorem sampleSys_eq :
    sampleSys =
      { uiState := { AttachedItems := [camera], DetachedItems := [mouse, hub] }
        attachedTable := [headerCells, rowCells camera]
        detachedTable := [headerCells, rowCells mouse, rowCells hub]
        calls := [listArgv] } := by
  decide

/-! ## The projections and the handlers -/

/-- C7: the two projections built by `updateDeviceList` partition the snapshot:
`attachedItems` is the devices with status `Attached` and `detachedItems` those with another
status, each in snapshot order; the lengths add up, every device of the snapshot is in
exactly one of the two, as often as in the snapshot, and together they are a rearrangement
of the snapshot. -/
theorem projections_partition (items : List Device) :
    attachedOf items = items.filter (fun d => decide (d.Status = Attached)) ∧
    detachedOf items = items.filter (fun d => decide (d.Status ≠ Attached)) ∧
    (attachedOf items).length + (detachedOf items).length = items.length ∧
    (∀ d, d ∈ items ↔ (d ∈ attachedOf items ∨ d ∈ detachedOf items)) ∧
    (∀ d, ¬ (d ∈ attachedOf items ∧ d ∈ detachedOf items)) ∧
    (∀ d, (attachedOf items).count d + (detachedOf items).count d = items.count d) ∧
    (attachedOf items ++ detachedOf items).Perm items := by
  have hperm : (attachedOf items ++ detachedOf items).Perm items := by
    rw [attachedOf_eq, detachedOf_eq]
    have h := List.filter_append_perm (fun d : Device => decide (d.Status = Attached)) items
    have e : (fun d : Device => decide (d.Status ≠ Attached)) =
        (fun d : Device => !decide (d.Status = Attached)) := by
      funext d
      by_cases hd : d.Status = Attached <;> simp [hd]
    rw [e]
    exact h
  refine ⟨attachedOf_eq items, detachedOf_eq items, ?_, ?_, ?_, ?_, hperm⟩
  · have := hperm.length_eq
    simpa using this
  · intro d
    rw [← hperm.mem_iff, List.mem_append]
  · intro d
    rw [attachedOf_eq, detachedOf_eq, List.mem_filter, List.mem_filter]
    rintro ⟨⟨_, h1⟩, ⟨_, h2⟩⟩
    simp only [decide_eq_true_eq] at h1 h2
    exact h2 h1
  · intro d
    have := hperm.count_eq d
    simpa using this

/-- C8: when every external command succeeds, a selection in the detached pane of a
`NotShared` device runs exactly `bind`, `attach` and the refresh (whose command is `list`),
of a `Shared` device exactly `attach` and the refresh, and a selection in the attached pane
exactly `detach` and the refresh; every command carries the busID of the selected device. -/
theorem selection_command_sequences (exec : Exec) (s : Sys) (row : Int) (d : Device)
    (hok : ∀ calls argv, ∃ out, exec calls argv = .ok out) :
    (indexExpr s.uiState.DetachedItems (row - 1) = some d → d.Status = NotShared →
      detachedSelected exec s row =
        updateDeviceList exec
          { s with calls := s.calls ++ [bindArgv d.BusID, attachArgv d.BusID] } ∧
      (detachedSelected exec s row).2.calls =
        s.calls ++ [bindArgv d.BusID, attachArgv d.BusID, listArgv]) ∧
    (indexExpr s.uiState.DetachedItems (row - 1) = some d → d.Status = Shared →
      detachedSelected exec s row =
        updateDeviceList exec { s with calls := s.calls ++ [attachArgv d.BusID] } ∧
      (detachedSelected exec s row).2.calls = s.calls ++ [attachArgv d.BusID, listArgv]) ∧
    (indexExpr s.uiState.AttachedItems (row - 1) = some d →
      attachedSelected exec s row =
        updateDeviceList exec { s with calls := s.calls ++ [detachArgv d.BusID] } ∧
      (attachedSelected exec s row).2.calls = s.calls ++ [detachArgv d.BusID, listArgv]) := by
  refine ⟨?_, ?_, ?_⟩
  · intro hd hs
    obtain ⟨out, hb⟩ := hok s.calls (bindArgv d.BusID)
    obtain ⟨out2, ha⟩ := hok (s.calls ++ [bindArgv d.BusID]) (attachArgv d.BusID)
    have e := detachedSelected_bind_attach exec s row d out out2 hd hs hb ha
    refine ⟨e, ?_⟩
    rw [e, updateDeviceList_calls]
    simp
  · intro hd hs
    have hs2 : d.Status ≠ NotShared := by
      rw [hs]
      decide
    obtain ⟨out, ha⟩ := hok s.calls (attachArgv d.BusID)
    have e := detachedSelected_attach exec s row d out hd hs2 ha
    refine ⟨e, ?_⟩
    rw [e, updateDeviceList_calls]
    simp
  · intro hd
    obtain ⟨out, hx⟩ := hok s.calls (detachArgv d.BusID)
    have e := attachedSelected_detach exec s row d out hd hx
    refine ⟨e, ?_⟩
    rw [e, updateDeviceList_calls]
    simp

/-- A concrete instance of the command sequences: in the state after the sample listing, the
first detached row is a `NotShared` device, the second a `Shared` one, and the first attached
row an `Attached` one. -/
theorem selection_command_sequences_witness :
    (∀ calls argv, ∃ out, constExec (textOf sampleLines) calls argv = .ok out) ∧
    indexExpr sampleSys.uiState.DetachedItems (1 - 1) = some mouse ∧
    mouse.Status = NotShared ∧
    (detachedSelected (constExec (textOf sampleLines)) sampleSys 1).2.calls =
      sampleSys.calls ++ [bindArgv mouse.BusID, attachArgv mouse.BusID, listArgv] ∧
    indexExpr sampleSys.uiState.DetachedItems (2 - 1) = some hub ∧
    hub.Status = Shared ∧
    (detachedSelected (constExec (textOf sampleLines)) sampleSys 2).2.calls =
      sampleSys.calls ++ [attachArgv hub.BusID, listArgv] ∧
    indexExpr sampleSys.uiState.AttachedItems (1 - 1) = some camera ∧
    (attachedSelected (constExec (textOf sampleLines)) sampleSys 1).2.calls =
      sampleSys.calls ++ [detachArgv camera.BusID, listArgv] :=
  ⟨fun _ _ => ⟨_, rfl⟩, by decide, by decide,
    ((selection_command_sequences (constExec (textOf sampleLines)) sampleSys 1 mouse
      (fun _ _ => ⟨_, rfl⟩)).1 (by decide) (by decide)).2,
    by decide, by decide,
    ((selection_command_sequences (constExec (textOf sampleLines)) sampleSys 2 hub
      (fun _ _ => ⟨_, rfl⟩)).2.1 (by decide) (by decide)).2,
    by decide,
    ((selection_command_sequences (constExec (textOf sampleLines)) sampleSys 1 camera
      (fun _ _ => ⟨_, rfl⟩)).2.2 (by decide)).2⟩

/-- C9, as stated, fails: what is surfaced when `bind` fails does not identify the `bind`
operation. A `NotShared` device is selected; with a tool whose `bind` fails the handler
panics with the error `exit status 1`, and with a tool whose `bind` succeeds and whose
`attach` fails it panics with the very same value. -/
theorem bind_failure_not_identified :
    indexExpr sampleSys.uiState.DetachedItems (1 - 1) = some mouse ∧
    mouse.Status = NotShared ∧
    failingExec sampleSys.calls (bindArgv mouse.BusID) = .error "exit status 1".toList ∧
    bindOnlyExec sampleSys.calls (bindArgv mouse.BusID) = .ok [] ∧
    bindOnlyExec (sampleSys.calls ++ [bindArgv mouse.BusID]) (attachArgv mouse.BusID) =
      .error "exit status 1".toList ∧
    (detachedSelected failingExec sampleSys 1).2.calls =
      sampleSys.calls ++ [bindArgv mouse.BusID] ∧
    (detachedSelected bindOnlyExec sampleSys 1).2.calls =
      sampleSys.calls ++ [bindArgv mouse.BusID, attachArgv mouse.BusID] ∧
    (detachedSelected failingExec sampleSys 1).1 = some (.err "exit status 1".toList) ∧
    (detachedSelected failingExec sampleSys 1).1 =
      (detachedSelected bindOnlyExec sampleSys 1).1 :=
  ⟨by decide, by decide, rfl, rfl, rfl, by decide, by decide, by decide, by decide⟩

/-- C9, amended: when a `NotShared` device is selected in the detached pane and `bind`
fails, `attach` is never invoked, no refresh is performed, `uiState` and both tables are
unchanged, and the handler panics with the error of the command as the tool gave it (which
does not name the operation); likewise a failed `attach` or `detach` ends the handler at
once, with nothing but the record of the calls changed; and whenever a handler panics, also
inside the refresh, `uiState` is as before. -/
theorem failed_command_aborts (exec : Exec) (s : Sys) (row : Int) (d : Device) (e : GoError) :
    (indexExpr s.uiState.DetachedItems (row - 1) = some d → d.Status = NotShared →
      exec s.calls (bindArgv d.BusID) = .error e →
      detachedSelected exec s row =
        (some (.err e), { s with calls := s.calls ++ [bindArgv d.BusID] })) ∧
    (indexExpr s.uiState.DetachedItems (row - 1) = some d → d.Status = NotShared →
      (∃ out, exec s.calls (bindArgv d.BusID) = .ok out) →
      exec (s.calls ++ [bindArgv d.BusID]) (attachArgv d.BusID) = .error e →
      detachedSelected exec s row =
        (some (.err e),
          { s with calls := s.calls ++ [bindArgv d.BusID, attachArgv d.BusID] })) ∧
    (indexExpr s.uiState.DetachedItems (row - 1) = some d → d.Status ≠ NotShared →
      exec s.calls (attachArgv d.BusID) = .error e →
      detachedSelected exec s row =
        (some (.err e), { s with calls := s.calls ++ [attachArgv d.BusID] })) ∧
    (indexExpr s.uiState.AttachedItems (row - 1) = some d →
      exec s.calls (detachArgv d.BusID) = .error e →
      attachedSelected exec s row =
        (some (.err e), { s with calls := s.calls ++ [detachArgv d.BusID] })) ∧
    (∀ p, (detachedSelected exec s row).1 = some p →
      (detachedSelected exec s row).2.uiState = s.uiState) ∧
    (∀ p, (attachedSelected exec s row).1 = some p →
      (attachedSelected exec s row).2.uiState = s.uiState) := by
  refine ⟨?_, ?_, ?_, ?_, ?_, ?_⟩
  · intro hd hs hb
    exact detachedSelected_bind_fails exec s row d e hd hs hb
  · rintro hd hs ⟨out, hb⟩ ha
    exact detachedSelected_bind_attach_fails exec s row d e out hd hs hb ha
  · intro hd hs ha
    exact detachedSelected_attach_fails exec s row d e hd hs ha
  · intro hd hx
    exact attachedSelected_detach_fails exec s row d e hd hx
  · intro p h
    exact detachedSelected_panic_uiState exec s row p h
  · intro p h
    exact attachedSelected_panic_uiState exec s row p h

/-- A concrete instance of the aborted sequences: the state after the sample listing and a
tool whose every call fails. -/
theorem failed_command_aborts_witness :
    indexExpr sampleSys.uiState.DetachedItems (1 - 1) = some mouse ∧
    mouse.Status = NotShared ∧
    failingExec sampleSys.calls (bindArgv mouse.BusID) = .error "exit status 1".toList ∧
    detachedSelected failingExec sampleSys 1 =
      (some (.err "exit status 1".toList),
        { sampleSys with calls := sampleSys.calls ++ [bindArgv mouse.BusID] }) ∧
    indexExpr sampleSys.uiState.DetachedItems (2 - 1) = some hub ∧
    hub.Status ≠ NotShared ∧
    failingExec sampleSys.calls (attachArgv hub.BusID) = .error "exit status 1".toList ∧
    detachedSelected failingExec sampleSys 2 =
      (some (.err "exit status 1".toList),
        { sampleSys with calls := sampleSys.calls ++ [attachArgv hub.BusID] }) ∧
    indexExpr sampleSys.uiState.AttachedItems (1 - 1) = some camera ∧
    failingExec sampleSys.calls (detachArgv camera.BusID) = .error "exit status 1".toList ∧
    attachedSelected failingExec sampleSys 1 =
      (some (.err "exit status 1".toList),
        { sampleSys with calls := sampleSys.calls ++ [detachArgv camera.BusID] }) ∧
    (detachedSelected bindOnlyExec sampleSys 1).1 = some (.err "exit status 1".toList) ∧
    (detachedSelected bindOnlyExec sampleSys 1).2.uiState = sampleSys.uiState :=
  ⟨by decide, by decide, rfl,
    (failed_command_aborts failingExec sampleSys 1 mouse "exit status 1".toList).1
      (by decide) (by decide) rfl,
    by decide, by decide, rfl,
    (failed_command_aborts failingExec sampleSys 2 hub "exit status 1".toList).2.2.1
      (by decide) (by decide) rfl,
    by decide, rfl,
    (failed_command_aborts failingExec sampleSys 1 camera "exit status 1".toList).2.2.2.1
      (by decide) rfl,
    by decide,
    (failed_command_aborts bindOnlyExec sampleSys 1 mouse "exit status 1".toList).2.2.2.2.1
      (.err "exit status 1".toList) (by decide)⟩

/-- C10, as stated, fails: when the listing command fails, or its output has no markers,
the refresh has already emptied both tables; their rows are not left as they were. -/
theorem failed_refresh_empties_tables :
    sampleSys.detachedTable = [headerCells, rowCells mouse, rowCells hub] ∧
    sampleSys.attachedTable = [headerCells, rowCells camera] ∧
    (updateDeviceList failingExec sampleSys).1 = some (.err "exit status 1".toList) ∧
    (updateDeviceList failingExec sampleSys).2.detachedTable = [] ∧
    (updateDeviceList failingExec sampleSys).2.attachedTable = [] ∧
    (updateDeviceList (constExec "no devices".toList) sampleSys).1 =
      some (.err markerError) ∧
    (updateDeviceList (constExec "no devices".toList) sampleSys).2.detachedTable = [] ∧
    (updateDeviceList (constExec "no devices".toList) sampleSys).2.attachedTable = [] := by
  decide

/-- C10, amended: a refresh that fails (the listing command fails, the markers are missing,
or the parse panics) ends in a panic carrying the failure, with `uiState` left as it was and
both tables emptied; a refresh that succeeds replaces both projections and both tables by
those of the new snapshot: the devices with status `Attached`, respectively the others, in
snapshot order, each table being the header row followed by one row per device. -/
theorem refresh_outcome (exec : Exec) (s : Sys) :
    updateDeviceList exec s =
      match (getDevices exec s.calls).1 with
      | .panic p => (some p, clearedBy s)
      | .ret (_, some err) => (some (.err err), clearedBy s)
      | .ret (items, none) => (none, replacedBy s items) :=
  updateDeviceList_eq exec s

end UsbipdTui
